import Mathlib

/-!
Verification of the slimmable cGAN-PD architecture definitions in
src/torch_mimicry/nets/slimmable_cgan_pd/slimmable_cgan_pd_32.py.

The file shallowly embeds the two classes of that module,
SlimmableCGANPDGenerator32 and SlimmableCGANPDDiscriminator32. Tensors are
nested lists over a linearly ordered commutative ring of scalars (the
discriminator pipeline, instantiated at ℤ or ℚ in concrete computations) or
over the reals (the generator, whose final activation is tanh). Layer objects
whose implementation lives outside this repository snapshot (SlimmableLinear,
SwitchableBatchNorm2d, the residual blocks, torch.randint) are modelled from
the specification where a claim needs their behaviour, and are otherwise
abstract functions carried by the model structures. The width-switching
global FLAGS object is modelled as an explicit parameter threaded into
forward, since forward reads it at call time.
-/

namespace SlimGAN

/-- Python int() applied to an exact rational: truncation toward zero. -/
def pyInt (q : ℚ) : ℤ := if 0 ≤ q then ⌊q⌋ else ⌈q⌉

/-- Python list indexing, supporting the negative index -1 used by the source
(l[-1] is the last element). Indexing is total here with an explicit default;
every access performed by the embedded code is in range. -/
def pyGet {α : Type} (l : List α) (dflt : α) (i : ℤ) : α :=
  if i < 0 then l.getD (l.length - (-i).toNat) dflt else l.getD i.toNat dflt

/-- Batches of vectors (torch tensors of rank 2). -/
abbrev Tensor2 (α : Type) := List (List α)

/-- Rank-4 tensors (N, C, H, W) as nested lists. -/
abbrev Tensor4 (α : Type) := List (List (List (List α)))

/-- Elementwise map over a rank-4 tensor. -/
def map4 {α β : Type} (f : α → β) (t : Tensor4 α) : Tensor4 β :=
  t.map (fun s => s.map (fun ch => ch.map (fun row => row.map f)))

/-- nn.ReLU applied elementwise to a rank-4 tensor. -/
def relu4 {α : Type} [LinearOrder α] [Zero α] (t : Tensor4 α) : Tensor4 α :=
  map4 (fun v => max v 0) t

/-- torch.sum(h, dim=(2, 3)): global sum pooling over the spatial dims. -/
def sumPool {α : Type} [AddCommMonoid α] (t : Tensor4 α) : Tensor2 α :=
  t.map (fun s => s.map (fun ch => (ch.map List.sum).sum))

/-- Elementwise addition of two batches (torch broadcasting not needed here). -/
def mat2Add {α : Type} [Add α] (a b : Tensor2 α) : Tensor2 α :=
  List.zipWith (List.zipWith (fun u v => u + v)) a b

/-- Elementwise product of two batches. -/
def mat2Mul {α : Type} [Mul α] (a b : Tensor2 α) : Tensor2 α :=
  List.zipWith (List.zipWith (fun u v => u * v)) a b

/-- torch.sum(m, dim=1, keepdim=True). -/
def rowSumKeepdim {α : Type} [AddCommMonoid α] (m : Tensor2 α) : Tensor2 α :=
  m.map (fun r => [r.sum])

/-- Dot product of two vectors. -/
def dotVec {α : Type} [AddCommMonoid α] [Mul α] (a b : List α) : α :=
  (List.zipWith (fun u v => u * v) a b).sum

/-- A spectrally normalised linear layer, as a function: weight rows and a
bias (the normalisation itself only rescales the stored weight). -/
structure SNLinear (α : Type) where
  weight : Tensor2 α
  bias : List α

/-- Apply a linear layer to one feature vector. -/
def SNLinear.applyVec {α : Type} [AddCommMonoid α] [Mul α] (l : SNLinear α)
    (v : List α) : List α :=
  List.zipWith (fun wrow b => dotVec wrow v + b) l.weight l.bias

/-- Apply a linear layer to a batch of feature vectors. -/
def SNLinear.applyBatch {α : Type} [AddCommMonoid α] [Mul α] (l : SNLinear α)
    (h : Tensor2 α) : Tensor2 α :=
  h.map l.applyVec

/-- A spectrally normalised embedding table, as a function. -/
structure SNEmbedding (α : Type) where
  weight : Tensor2 α

/-- Embedding lookup on a batch of integer labels. -/
def SNEmbedding.lookup {α : Type} (e : SNEmbedding α) (ys : List ℕ) : Tensor2 α :=
  ys.map (fun c => e.weight.getD c [])

/-- The global FLAGS object of torch_mimicry.modules.slimmable_ops, as read by
this module: the currently active width multiplier and the width list. -/
structure FLAGSModel where
  width_mult : ℚ
  width_mult_list : List ℚ

/-- Modelled from the spec: the width multipliers in FLAGS.width_mult_list are
the multiples of 0.25 up to 1.0 (slimmable_ops is not part of this snapshot). -/
def defaultWidthMultList : List ℚ := [1/4, 1/2, 3/4, 1]

/-- Line 131 of the source: idx = int(FLAGS.width_mult / 0.25) - 1. -/
def discIdx (flags : FLAGSModel) : ℤ := pyInt (flags.width_mult / (1/4)) - 1

/-- SlimmableCGANPDDiscriminator32 after __init__: six per-width module lists
(the residual-block internals are external to this snapshot, hence abstract
batch functions), the projection head, and the n_share sharing parameter. -/
structure DiscModel (α : Type) where
  num_classes : ℕ
  ndf : ℕ
  n_share : ℤ
  block1s : List (Tensor4 α → Tensor4 α)
  block2s : List (Tensor4 α → Tensor4 α)
  block3s : List (Tensor4 α → Tensor4 α)
  block4s : List (Tensor4 α → Tensor4 α)
  l5s : List (SNLinear α)
  l_ys : List (SNEmbedding α)

/-- SlimmableCGANPDDiscriminator32.forward, lines 120-148, translated
statement by statement. The label argument keeps its Python default None as
an Option; applying the embedding to None raises in Python, embedded as the
none result. -/
def DiscModel.forward {α : Type} [LinearOrderedCommRing α] (d : DiscModel α)
    (flags : FLAGSModel) (x : Tensor4 α) (y : Option (List ℕ)) :
    Option (Tensor2 α) :=
  let idx := discIdx flags
  let h := x
  let h := pyGet d.block1s id (if d.n_share > 0 then -1 else idx) h
  let h := pyGet d.block2s id (if d.n_share > 1 then -1 else idx) h
  let h := pyGet d.block3s id (if d.n_share > 2 then -1 else idx) h
  let h := pyGet d.block4s id (if d.n_share > 3 then -1 else idx) h
  let h := relu4 h
  let h := sumPool h
  let output := (pyGet d.l5s ⟨[], []⟩ (if d.n_share = -1 then -1 else idx)).applyBatch h
  match y with
  | none => none
  | some ys =>
      let w_y := (pyGet d.l_ys ⟨[]⟩ idx).lookup ys
      some (mat2Add output (rowSumKeepdim (mat2Mul w_y h)))

/-- The same pipeline with the branch choice of every module list made
explicit: branch j1 of block1s, ..., j5 of l5s, jy of l_ys. -/
def DiscModel.forwardRouted {α : Type} [LinearOrderedCommRing α]
    (d : DiscModel α) (j1 j2 j3 j4 j5 jy : ℕ) (x : Tensor4 α) (ys : List ℕ) :
    Tensor2 α :=
  let h := x
  let h := d.block1s.getD j1 id h
  let h := d.block2s.getD j2 id h
  let h := d.block3s.getD j3 id h
  let h := d.block4s.getD j4 id h
  let h := relu4 h
  let h := sumPool h
  let output := (d.l5s.getD j5 ⟨[], []⟩).applyBatch h
  let w_y := (d.l_ys.getD jy ⟨[]⟩).lookup ys
  mat2Add output (rowSumKeepdim (mat2Mul w_y h))

/-- torch.tanh applied elementwise to a rank-4 real tensor. -/
noncomputable def tanh4 (t : Tensor4 ℝ) : Tensor4 ℝ := map4 Real.tanh t

/-- h.view(N, -1, bw, bw) on a batch of flat feature vectors: each sample of
length F becomes F/(bw*bw) channels of bw rows of bw entries, in row-major
order, matching the torch view semantics on well-formed input. -/
def reshapeView {α : Type} [Zero α] (bw : ℕ) (m : Tensor2 α) : Tensor4 α :=
  m.map (fun flat =>
    (List.range (flat.length / (bw * bw))).map (fun ci =>
      (List.range bw).map (fun ri =>
        (List.range bw).map (fun wi => flat.getD (ci * (bw * bw) + ri * bw + wi) 0))))

/-- Modelled from the external library: torch.randint(low=0, high=high,
size=(n,)) draws n integers from [0, high); the draw is modelled by an
explicit entropy stream reduced modulo high, which keeps every value in
range. The uniformity of the distribution is outside the embedding. -/
def randintModel (stream : ℕ → ℕ) (high n : ℕ) : List ℕ :=
  (List.range n).map (fun i => stream i % high)

/-- SlimmableCGANPDGenerator32 after __init__: the slimmable layers built on
lines 32-38. Their internals live outside this snapshot, so they are abstract
batch functions here; the conditional blocks additionally take the labels. -/
structure GenModel where
  num_classes : ℕ
  nz : ℕ
  ngf : ℕ
  bottom_width : ℕ
  l1 : Tensor2 ℝ → Tensor2 ℝ
  block2 : Tensor4 ℝ → List ℕ → Tensor4 ℝ
  block3 : Tensor4 ℝ → List ℕ → Tensor4 ℝ
  block4 : Tensor4 ℝ → List ℕ → Tensor4 ℝ
  b5 : Tensor4 ℝ → Tensor4 ℝ
  c5 : Tensor4 ℝ → Tensor4 ℝ

/-- Lines 62-71 of SlimmableCGANPDGenerator32.forward, the pipeline run once
the labels are available, translated statement by statement. -/
noncomputable def GenModel.forwardWith (g : GenModel) (x : Tensor2 ℝ)
    (ys : List ℕ) : Tensor4 ℝ :=
  let h := g.l1 x
  let h := reshapeView g.bottom_width h
  let h := g.block2 h ys
  let h := g.block3 h ys
  let h := g.block4 h ys
  let h := g.b5 h
  let h := relu4 h
  let h := tanh4 (g.c5 h)
  h

/-- SlimmableCGANPDGenerator32.forward, lines 44-71: with y=None a label batch
is sampled by torch.randint(0, num_classes, (N,)); the call always produces an
image batch, embedded as a some result. -/
noncomputable def GenModel.forward (g : GenModel) (stream : ℕ → ℕ)
    (x : Tensor2 ℝ) (y : Option (List ℕ)) : Option (Tensor4 ℝ) :=
  let ys := match y with
    | none => randintModel stream g.num_classes x.length
    | some ys => ys
  some (g.forwardWith x ys)

/-- The fixed composition the spec ascribes to the generator forward pass:
tanh(c5(ReLU(b5(block4(block3(block2(reshape(l1(x)), y), y), y))))). -/
noncomputable def genForwardSpec (g : GenModel) (x : Tensor2 ℝ)
    (ys : List ℕ) : Tensor4 ℝ :=
  tanh4 (g.c5 (relu4 (g.b5 (g.block4 (g.block3 (g.block2
    (reshapeView g.bottom_width (g.l1 x)) ys) ys) ys))))

/-- Shape of a batch of flat vectors: n rows, each of length k. -/
def HasShape2 {α : Type} (m : Tensor2 α) (n k : ℕ) : Prop :=
  m.length = n ∧ ∀ r ∈ m, r.length = k

/-- Shape of a rank-4 tensor: (n, c, h, w). -/
def HasShape4 {α : Type} (t : Tensor4 α) (n c h w : ℕ) : Prop :=
  t.length = n ∧ ∀ s ∈ t, s.length = c ∧ ∀ ch ∈ s, ch.length = h ∧ ∀ r ∈ ch, r.length = w

/-- Membership of a scalar in a rank-4 tensor. -/
def Mem4 {α : Type} (v : α) (t : Tensor4 α) : Prop :=
  ∃ s ∈ t, ∃ ch ∈ s, ∃ r ∈ ch, v ∈ r

instance {α : Type} (m : Tensor2 α) (n k : ℕ) : Decidable (HasShape2 m n k) := by
  unfold HasShape2; infer_instance

instance {α : Type} (t : Tensor4 α) (n c h w : ℕ) : Decidable (HasShape4 t n c h w) := by
  unfold HasShape4; infer_instance

/-- Per-branch feature dimensions of a SlimmableLinear, as its constructor
receives them; the shared-weight slicing itself lives in slimmable_ops. -/
structure SlimmableLinearCfg where
  in_features_list : List ℤ
  out_features_list : List ℤ

/-- Per-branch channel counts of a SlimmableConv2d plus its fixed kernel
geometry, as its constructor receives them. -/
structure SlimmableConv2dCfg where
  in_channels_list : List ℤ
  out_channels_list : List ℤ
  kernel_size : ℕ
  stride : ℕ
  padding : ℕ

/-- Running statistics of one BatchNorm2d. -/
structure BNStats where
  running_mean : List ℚ
  running_var : List ℚ

/-- Modelled from the spec: SwitchableBatchNorm2d (from slimmable_ops, not in
this snapshot) keeps one independent BatchNorm2d, hence one independent set of
running statistics, per entry of its feature-count list. -/
structure SwitchableBatchNorm2d where
  num_features_list : List ℤ
  stats : List BNStats

/-- Modelled from the spec: the SwitchableBatchNorm2d constructor creates one
freshly initialised BatchNorm2d per width (mean 0, variance 1). -/
def mkSwitchableBatchNorm2d (features : List ℤ) : SwitchableBatchNorm2d :=
  { num_features_list := features,
    stats := features.map (fun f =>
      { running_mean := List.replicate f.toNat 0,
        running_var := List.replicate f.toNat 1 }) }

/-- Modelled from the spec: a training forward pass at active width index i
recomputes only the i-th BatchNorm2d's running statistics. -/
def SwitchableBatchNorm2d.stepStats (bn : SwitchableBatchNorm2d) (i : ℕ)
    (s : BNStats) : SwitchableBatchNorm2d :=
  { bn with stats := bn.stats.set i s }

/-- The slimmable layer objects built by SlimmableCGANPDGenerator32.__init__. -/
structure GenCfg where
  l1 : SlimmableLinearCfg
  b5 : SwitchableBatchNorm2d
  c5 : SlimmableConv2dCfg

/-- Lines 32-37 of SlimmableCGANPDGenerator32.__init__: the constructor
arguments of the slimmable layers, one entry per width multiplier in
FLAGS.width_mult_list. -/
def genInitCfg (flags : FLAGSModel) (nz ngf bottom_width : ℕ) : GenCfg :=
  { l1 := { in_features_list := flags.width_mult_list.map (fun _ => (nz : ℤ)),
            out_features_list := flags.width_mult_list.map (fun w =>
              pyInt ((bottom_width ^ 2 * ngf : ℕ) * w)) },
    b5 := mkSwitchableBatchNorm2d (flags.width_mult_list.map (fun w =>
            pyInt ((ngf : ℕ) * w))),
    c5 := { in_channels_list := flags.width_mult_list.map (fun w =>
              pyInt ((ngf : ℕ) * w)),
            out_channels_list := flags.width_mult_list.map (fun _ => 3),
            kernel_size := 3, stride := 1, padding := 1 } }

/-- The projection-discriminator logits as the spec describes them: per sample,
l5 applied to the pooled features plus the inner product of the label embedding
row with the pooled features, one logit per sample. B is the composition of
the four selected D-blocks. -/
def discSpecLogits {α : Type} [LinearOrderedCommRing α]
    (B : Tensor4 α → Tensor4 α) (L : SNLinear α) (E : SNEmbedding α)
    (x : Tensor4 α) (ys : List ℕ) : Tensor2 α :=
  let h := sumPool (relu4 (B x))
  List.zipWith (fun hn yn => [(L.applyVec hn).headD 0 + dotVec (E.weight.getD yn []) hn]) h ys

/-- Discriminator forward as an explicit state transformer on the module
state. Every statement of lines 131-148 only reads module attributes; the
layer calls themselves are pure per the spec (delegation to the external
autograd library, no per-call resource management), so each translated
statement passes the module state through unchanged. -/
def DiscModel.forwardS {α : Type} [LinearOrderedCommRing α] (d : DiscModel α)
    (flags : FLAGSModel) (x : Tensor4 α) (y : Option (List ℕ)) :
    Option (Tensor2 α) × DiscModel α :=
  let s0 := d
  let idx := discIdx flags
  let (h, s1) := (x, s0)
  let (h, s2) := (pyGet s1.block1s id (if s1.n_share > 0 then -1 else idx) h, s1)
  let (h, s3) := (pyGet s2.block2s id (if s2.n_share > 1 then -1 else idx) h, s2)
  let (h, s4) := (pyGet s3.block3s id (if s3.n_share > 2 then -1 else idx) h, s3)
  let (h, s5) := (pyGet s4.block4s id (if s4.n_share > 3 then -1 else idx) h, s4)
  let (h, s6) := (relu4 h, s5)
  let (h, s7) := (sumPool h, s6)
  let (output, s8) := ((pyGet s7.l5s ⟨[], []⟩ (if s7.n_share = -1 then -1 else idx)).applyBatch h, s7)
  match y with
  | none => (none, s8)
  | some ys =>
      let (w_y, s9) := ((pyGet s8.l_ys ⟨[]⟩ idx).lookup ys, s8)
      (some (mat2Add output (rowSumKeepdim (mat2Mul w_y h))), s9)

/-- A concrete upsampling operation that doubles both spatial dimensions by
duplication; it instantiates the shape contract of an upsampling GBlock. -/
def upsampleDup {α : Type} (t : Tensor4 α) : Tensor4 α :=
  t.map (fun s => s.map (fun ch =>
    (ch.map (fun r => r ++ r)) ++ (ch.map (fun r => r ++ r))))

/-- A concrete channel projection to 3 channels that keeps the spatial
dimensions; it instantiates the shape contract of the final conv c5. -/
def threeChan {α : Type} (t : Tensor4 α) : Tensor4 α :=
  t.map (fun s => [s.headD [], s.headD [], s.headD []])

/-- FLAGS with the active multiplier 0.25. -/
def flagsQuarter : FLAGSModel := ⟨1/4, defaultWidthMultList⟩

/-- FLAGS with the active multiplier 0.5. -/
def flagsHalf : FLAGSModel := ⟨1/2, defaultWidthMultList⟩

/-- A 1x1x1x1 integer test tensor. -/
def qTens (v : ℤ) : Tensor4 ℤ := [[[[v]]]]

/-- A block that ignores its input and returns a fixed 1x1x1x1 tensor. -/
def constBlock (v : ℤ) : Tensor4 ℤ → Tensor4 ℤ := fun _ => qTens v

/-- A concrete discriminator with four distinguishable block1 branches,
identity deeper blocks, a unit projection head, and n_share = 1. -/
def dShareOne : DiscModel ℤ :=
  { num_classes := 1, ndf := 1, n_share := 1,
    block1s := [constBlock 0, constBlock 1, constBlock 2, constBlock 3],
    block2s := [id, id, id, id],
    block3s := [id, id, id, id],
    block4s := [id, id, id, id],
    l5s := [⟨[[1]], [0]⟩, ⟨[[1]], [0]⟩, ⟨[[1]], [0]⟩, ⟨[[1]], [0]⟩],
    l_ys := [⟨[[0]]⟩, ⟨[[0]]⟩, ⟨[[0]]⟩, ⟨[[0]]⟩] }

/-- The same concrete discriminator with the default n_share = 0. -/
def dShareZero : DiscModel ℤ := { dShareOne with n_share := 0 }

/-- The same concrete discriminator with n_share = 2. -/
def dShareTwo : DiscModel ℤ := { dShareOne with n_share := 2 }

/-- A concrete generator whose abstract layers satisfy the shape contracts:
l1 emits one feature, the blocks upsample by duplication, b5 is the identity,
c5 projects to three channels. -/
def gWit : GenModel :=
  { num_classes := 1, nz := 1, ngf := 1, bottom_width := 1,
    l1 := fun m => m.map (fun _ => [0]),
    block2 := fun t _ => upsampleDup t,
    block3 := fun t _ => upsampleDup t,
    block4 := fun t _ => upsampleDup t,
    b5 := fun t => t,
    c5 := threeChan }

theorem pyGet_neg_one {α : Type} (l : List α) (dflt : α) :
    pyGet l dflt (-1) = l.getD (l.length - 1) dflt := by
  simp [pyGet]

theorem pyGet_natCast {α : Type} (l : List α) (dflt : α) (k : ℕ) :
    pyGet l dflt (k : ℤ) = l.getD k dflt := by
  simp [pyGet]

theorem pyGet_cond {α : Type} (l : List α) (dflt : α) (c : Prop) [Decidable c]
    (nb k : ℕ) (hl : l.length = nb) :
    pyGet l dflt (if c then -1 else (k : ℤ)) =
      l.getD (if c then nb - 1 else k) dflt := by
  by_cases h : c
  · simp [h, pyGet_neg_one, hl]
  · simp [h, pyGet_natCast]

/-- The active width multiplier (k+1)/4 from the list yields branch index k. -/
theorem discIdx_quarter (flags : FLAGSModel) (k : ℕ)
    (hwm : flags.width_mult = ((k : ℚ) + 1) / 4) : discIdx flags = (k : ℤ) := by
  have h1 : flags.width_mult / (1/4) = ((k : ℚ) + 1) := by
    rw [hwm]; ring
  have h2 : pyInt ((k : ℚ) + 1) = (k : ℤ) + 1 := by
    rw [pyInt, if_pos (by positivity)]
    rw [show ((k : ℚ) + 1) = ((k + 1 : ℕ) : ℚ) by push_cast; ring]
    rw [Int.floor_natCast]
    push_cast
    ring
  unfold discIdx
  rw [h1, h2]
  ring

/-- Core routing fact: forward equals the explicitly routed pipeline, with
each list's branch the last one or the width index, as the n_share
comparisons in the source dictate. -/
theorem forward_eq_routed {α : Type} [LinearOrderedCommRing α]
    (d : DiscModel α) (flags : FLAGSModel)
    (x : Tensor4 α) (ys : List ℕ) (nb k : ℕ)
    (hk : discIdx flags = (k : ℤ)) (hknb : k < nb)
    (h1 : d.block1s.length = nb) (h2 : d.block2s.length = nb)
    (h3 : d.block3s.length = nb) (h4 : d.block4s.length = nb)
    (h5 : d.l5s.length = nb) (h6 : d.l_ys.length = nb) :
    d.forward flags x (some ys) = some (d.forwardRouted
      (if d.n_share > 0 then nb - 1 else k) (if d.n_share > 1 then nb - 1 else k)
      (if d.n_share > 2 then nb - 1 else k) (if d.n_share > 3 then nb - 1 else k)
      (if d.n_share = -1 then nb - 1 else k) k x ys) := by
  simp only [DiscModel.forward, DiscModel.forwardRouted, hk,
    pyGet_cond d.block1s id _ nb k h1, pyGet_cond d.block2s id _ nb k h2,
    pyGet_cond d.block3s id _ nb k h3, pyGet_cond d.block4s id _ nb k h4,
    pyGet_cond d.l5s ⟨[], []⟩ _ nb k h5, pyGet_natCast d.l_ys ⟨[]⟩ k, h6]

theorem hasShape4_map4 {α β : Type} (f : α → β) (t : Tensor4 α) (n c h w : ℕ)
    (ht : HasShape4 t n c h w) : HasShape4 (map4 f t) n c h w := by
  obtain ⟨hn, hrest⟩ := ht
  refine ⟨by simp [map4, hn], ?_⟩
  intro s hs
  simp only [map4, List.mem_map] at hs
  obtain ⟨s0, hs0, rfl⟩ := hs
  obtain ⟨hc, hch⟩ := hrest s0 hs0
  refine ⟨by simp [hc], ?_⟩
  intro ch hchm
  simp only [List.mem_map] at hchm
  obtain ⟨ch0, hch0, rfl⟩ := hchm
  obtain ⟨hh, hrow⟩ := hch ch0 hch0
  refine ⟨by simp [hh], ?_⟩
  intro r hrm
  simp only [List.mem_map] at hrm
  obtain ⟨r0, hr0, rfl⟩ := hrm
  simp [hrow r0 hr0]

theorem mem4_map4 {α β : Type} (f : α → β) (t : Tensor4 α) (v : β)
    (hv : Mem4 v (map4 f t)) : ∃ u, Mem4 u t ∧ v = f u := by
  obtain ⟨s, hs, ch, hch, r, hr, hvr⟩ := hv
  simp only [map4, List.mem_map] at hs
  obtain ⟨s0, hs0, rfl⟩ := hs
  simp only [List.mem_map] at hch
  obtain ⟨ch0, hch0, rfl⟩ := hch
  simp only [List.mem_map] at hr
  obtain ⟨r0, hr0, rfl⟩ := hr
  simp only [List.mem_map] at hvr
  obtain ⟨u, hu, rfl⟩ := hvr
  exact ⟨u, ⟨s0, hs0, ch0, hch0, r0, hr0, hu⟩, rfl⟩

theorem hasShape4_relu4 {α : Type} [LinearOrder α] [Zero α] (t : Tensor4 α)
    (n c h w : ℕ) (ht : HasShape4 t n c h w) : HasShape4 (relu4 t) n c h w :=
  hasShape4_map4 _ t n c h w ht

theorem hasShape4_tanh4 (t : Tensor4 ℝ) (n c h w : ℕ)
    (ht : HasShape4 t n c h w) : HasShape4 (tanh4 t) n c h w :=
  hasShape4_map4 _ t n c h w ht

theorem hasShape4_reshapeView {α : Type} [Zero α] (bw : ℕ) (m : Tensor2 α)
    (n F : ℕ) (hm : HasShape2 m n F) :
    HasShape4 (reshapeView bw m) n (F / (bw * bw)) bw bw := by
  obtain ⟨hn, hr⟩ := hm
  refine ⟨by simp [reshapeView, hn], ?_⟩
  intro s hs
  simp only [reshapeView, List.mem_map] at hs
  obtain ⟨flat, hflat, rfl⟩ := hs
  refine ⟨by simp [hr flat hflat], ?_⟩
  intro ch hch
  simp only [List.mem_map] at hch
  obtain ⟨ci, _, rfl⟩ := hch
  refine ⟨by simp, ?_⟩
  intro r hrow
  simp only [List.mem_map] at hrow
  obtain ⟨ri, _, rfl⟩ := hrow
  simp

theorem hasShape4_upsampleDup {α : Type} (t : Tensor4 α) (n c h w : ℕ)
    (ht : HasShape4 t n c h w) : HasShape4 (upsampleDup t) n c (2 * h) (2 * w) := by
  obtain ⟨hn, hrest⟩ := ht
  refine ⟨by simp [upsampleDup, hn], ?_⟩
  intro s hs
  simp only [upsampleDup, List.mem_map] at hs
  obtain ⟨s0, hs0, rfl⟩ := hs
  obtain ⟨hc, hch⟩ := hrest s0 hs0
  refine ⟨by simp [hc], ?_⟩
  intro ch hchm
  simp only [List.mem_map] at hchm
  obtain ⟨ch0, hch0, rfl⟩ := hchm
  obtain ⟨hh, hrow⟩ := hch ch0 hch0
  constructor
  · simp [hh]; ring
  · intro r hrm
    simp only [List.mem_append, List.mem_map] at hrm
    rcases hrm with ⟨r0, hr0, rfl⟩ | ⟨r0, hr0, rfl⟩ <;>
      simp [hrow r0 hr0] <;> ring

theorem headD_mem {α : Type} (l : List α) (d : α) (hl : l ≠ []) :
    l.headD d ∈ l := by
  cases l with
  | nil => exact absurd rfl hl
  | cons a t => simp

theorem hasShape4_threeChan {α : Type} (t : Tensor4 α) (n c h w : ℕ)
    (hc : 0 < c) (ht : HasShape4 t n c h w) : HasShape4 (threeChan t) n 3 h w := by
  obtain ⟨hn, hrest⟩ := ht
  refine ⟨by simp [threeChan, hn], ?_⟩
  intro s hs
  simp only [threeChan, List.mem_map] at hs
  obtain ⟨s0, hs0, rfl⟩ := hs
  obtain ⟨hcl, hch⟩ := hrest s0 hs0
  have hne : s0 ≠ [] := by
    intro he
    rw [he] at hcl
    simp at hcl
    omega
  have hmem := headD_mem s0 [] hne
  obtain ⟨hh, hrow⟩ := hch _ hmem
  refine ⟨by simp, ?_⟩
  intro ch hchm
  simp only [List.mem_cons, List.not_mem_nil, or_false] at hchm
  rcases hchm with rfl | rfl | rfl <;> exact ⟨hh, hrow⟩

theorem tanh_le_one_aux (x : ℝ) : Real.tanh x ≤ 1 := by
  rw [Real.tanh_eq_sinh_div_cosh]
  exact (div_le_one (Real.cosh_pos x)).mpr (Real.sinh_lt_cosh x).le

theorem neg_one_le_tanh_aux (x : ℝ) : -1 ≤ Real.tanh x := by
  have h := tanh_le_one_aux (-x)
  rw [Real.tanh_neg] at h
  linarith

/-- Elements of a tanh4 image lie in [-1, 1]. -/
theorem mem4_tanh4_bounds (t : Tensor4 ℝ) (v : ℝ) (hv : Mem4 v (tanh4 t)) :
    -1 ≤ v ∧ v ≤ 1 := by
  obtain ⟨u, _, rfl⟩ := mem4_map4 Real.tanh t v hv
  exact ⟨neg_one_le_tanh_aux u, tanh_le_one_aux u⟩

/-- The final two statements of the discriminator forward, rearranged into the
per-sample projection formula, given a one-dimensional head. -/
theorem logits_eq {α : Type} [LinearOrderedCommRing α] (L : SNLinear α)
    (E : SNEmbedding α) (h : Tensor2 α) (ys : List ℕ)
    (hw : L.weight.length = 1) (hb : L.bias.length = 1)
    (hlen : ys.length = h.length) :
    mat2Add (L.applyBatch h) (rowSumKeepdim (mat2Mul (E.lookup ys) h)) =
      List.zipWith (fun hn yn =>
        [(L.applyVec hn).headD 0 + dotVec (E.weight.getD yn []) hn]) h ys := by
  obtain ⟨w0, hw0⟩ := List.length_eq_one.mp hw
  obtain ⟨b0, hb0⟩ := List.length_eq_one.mp hb
  induction h generalizing ys with
  | nil =>
      cases ys <;>
        simp [mat2Add, mat2Mul, rowSumKeepdim, SNLinear.applyBatch, SNEmbedding.lookup]
  | cons hn t ih =>
      cases ys with
      | nil => simp at hlen
      | cons yn yt =>
          have hlen2 : yt.length = t.length := by simpa using hlen
          have hhead : List.zipWith (fun u v => u + v) (L.applyVec hn)
              [(List.zipWith (fun u v => u * v) (E.weight.getD yn []) hn).sum]
              = [(L.applyVec hn).headD 0 + dotVec (E.weight.getD yn []) hn] := by
            simp [SNLinear.applyVec, hw0, hb0, dotVec]
          calc mat2Add (L.applyBatch (hn :: t))
                (rowSumKeepdim (mat2Mul (E.lookup (yn :: yt)) (hn :: t)))
              = List.zipWith (fun u v => u + v) (L.applyVec hn)
                  [(List.zipWith (fun u v => u * v) (E.weight.getD yn []) hn).sum]
                :: mat2Add (L.applyBatch t) (rowSumKeepdim (mat2Mul (E.lookup yt) t)) := rfl
            _ = _ := by rw [hhead, ih yt hlen2]; rfl

/-- Rows of the spec logits are singletons. -/
theorem discSpecLogits_rows {α : Type} [LinearOrderedCommRing α]
    (B : Tensor4 α → Tensor4 α) (L : SNLinear α)
    (E : SNEmbedding α) (x : Tensor4 α) (ys : List ℕ) :
    ∀ row ∈ discSpecLogits B L E x ys, row.length = 1 := by
  intro row hrow
  unfold discSpecLogits at hrow
  generalize sumPool (relu4 (B x)) = h at hrow
  induction h generalizing ys with
  | nil => simp at hrow
  | cons hn t ih =>
      cases ys with
      | nil => simp at hrow
      | cons yn yt =>
          simp only [List.zipWith_cons_cons, List.mem_cons] at hrow
          rcases hrow with rfl | hrow
          · simp
          · exact ih yt hrow

/-- Claim C1, counterexample: with n_share = 1 (a value the constructor
accepts) and active width 0.25 (so idx = 0, drawn from the width list),
forward does NOT route through branch idx of every per-width ModuleList:
block1s uses the last branch instead. -/
theorem claim_C1_counterexample :
    flagsQuarter.width_mult ∈ flagsQuarter.width_mult_list ∧
    discIdx flagsQuarter = 0 ∧
    dShareOne.forward flagsQuarter (qTens 5) (some [0]) ≠
      some (dShareOne.forwardRouted 0 0 0 0 0 0 (qTens 5) [0]) := by
  have hidx : discIdx flagsQuarter = (0 : ℤ) :=
    discIdx_quarter flagsQuarter 0 (by simp [flagsQuarter])
  refine ⟨by simp [flagsQuarter, defaultWidthMultList], hidx, ?_⟩
  simp only [DiscModel.forward, DiscModel.forwardRouted, hidx]
  decide

/-- Claim C1 (amended): when n_share = 0 (the constructor default), a forward
call routes the input through the branch at index int(width_mult / 0.25) - 1
of every per-width ModuleList (block1s..block4s, l5s, l_ys), the branch being
selected at call time from the active multiplier. -/
theorem claim_C1_amended {α : Type} [LinearOrderedCommRing α] (d : DiscModel α)
    (flags : FLAGSModel) (x : Tensor4 α)
    (ys : List ℕ) (nb k : ℕ) (h0 : d.n_share = 0)
    (hwm : flags.width_mult = ((k : ℚ) + 1) / 4) (hknb : k < nb)
    (h1 : d.block1s.length = nb) (h2 : d.block2s.length = nb)
    (h3 : d.block3s.length = nb) (h4 : d.block4s.length = nb)
    (h5 : d.l5s.length = nb) (h6 : d.l_ys.length = nb) :
    d.forward flags x (some ys) = some (d.forwardRouted k k k k k k x ys) := by
  have hk := discIdx_quarter flags k hwm
  have h := forward_eq_routed d flags x ys nb k hk hknb h1 h2 h3 h4 h5 h6
  rw [h0] at h
  simpa using h

/-- Witness for claim C1 (amended) at n_share = 0, width 0.25. -/
theorem claim_C1_witness :
    dShareZero.forward flagsQuarter (qTens 5) (some [0]) =
      some (dShareZero.forwardRouted 0 0 0 0 0 0 (qTens 5) [0]) :=
  claim_C1_amended dShareZero flagsQuarter (qTens 5) [0] 4 0 rfl
    (by simp [flagsQuarter]) (by decide) rfl rfl rfl rfl rfl rfl

/-- Claim C2, counterexample: two forward calls with identical stored weights
and identical inputs (x, y) return different outputs when FLAGS.width_mult is
changed between the calls, so the computation does depend on mutable global
state read at call time. -/
theorem claim_C2_counterexample :
    dShareZero.forward flagsQuarter (qTens 5) (some [0]) ≠
      dShareZero.forward flagsHalf (qTens 5) (some [0]) := by
  have h1 : discIdx flagsQuarter = (0 : ℤ) :=
    discIdx_quarter flagsQuarter 0 (by simp [flagsQuarter])
  have h2 : discIdx flagsHalf = (1 : ℤ) :=
    discIdx_quarter flagsHalf 1 (by norm_num [flagsHalf])
  simp only [DiscModel.forward, h1, h2]
  decide

/-- Claim C2 (amended): the forward output depends on the global FLAGS only
through the width_mult value read at call time; two calls with identical
inputs and equal active width_mult return identical outputs. -/
theorem claim_C2_amended {α : Type} [LinearOrderedCommRing α] (d : DiscModel α)
    (f1 f2 : FLAGSModel) (x : Tensor4 α)
    (y : Option (List ℕ)) (hwm : f1.width_mult = f2.width_mult) :
    d.forward f1 x y = d.forward f2 x y := by
  have hidx : discIdx f1 = discIdx f2 := by simp [discIdx, hwm]
  simp [DiscModel.forward, hidx]

/-- Witness for claim C2 (amended): equal width_mult, different width lists. -/
theorem claim_C2_witness :
    dShareZero.forward flagsQuarter (qTens 5) (some [0]) =
      dShareZero.forward ⟨1/4, [1/4]⟩ (qTens 5) (some [0]) :=
  claim_C2_amended dShareZero flagsQuarter ⟨1/4, [1/4]⟩ (qTens 5) (some [0]) rfl

/-- Claim C3: for every width multiplier w in FLAGS.width_mult_list, the
generator constructor builds l1 with input features nz (the same nz for every
w) and output features int(bottom_width^2 * ngf * w), and c5 with input
channels int(ngf * w) and 3 output channels. -/
theorem claim_C3 (flags : FLAGSModel) (nz ngf bottom_width : ℕ) (i : ℕ)
    (hi : i < flags.width_mult_list.length) :
    (genInitCfg flags nz ngf bottom_width).l1.in_features_list[i]? = some (nz : ℤ)
  ∧ (genInitCfg flags nz ngf bottom_width).l1.out_features_list[i]? =
      some (pyInt ((bottom_width ^ 2 * ngf : ℕ) * flags.width_mult_list[i]))
  ∧ (genInitCfg flags nz ngf bottom_width).c5.in_channels_list[i]? =
      some (pyInt ((ngf : ℕ) * flags.width_mult_list[i]))
  ∧ (genInitCfg flags nz ngf bottom_width).c5.out_channels_list[i]? = some 3 := by
  refine ⟨?_, ?_, ?_, ?_⟩ <;>
    simp [genInitCfg, List.getElem?_map, List.getElem?_eq_getElem hi,
      List.getElem?_replicate, hi]

/-- Witness for claim C3 at the default sizes, width list entry 0 (w = 0.25). -/
theorem claim_C3_witness :
    (genInitCfg flagsQuarter 128 256 4).l1.in_features_list[0]? = some ((128 : ℕ) : ℤ)
  ∧ (genInitCfg flagsQuarter 128 256 4).l1.out_features_list[0]? =
      some (pyInt ((4 ^ 2 * 256 : ℕ) * flagsQuarter.width_mult_list.get ⟨0, by decide⟩))
  ∧ (genInitCfg flagsQuarter 128 256 4).c5.in_channels_list[0]? =
      some (pyInt ((256 : ℕ) * flagsQuarter.width_mult_list.get ⟨0, by decide⟩))
  ∧ (genInitCfg flagsQuarter 128 256 4).c5.out_channels_list[0]? = some 3 :=
  claim_C3 flagsQuarter 128 256 4 0 (by decide)

/-- Claim C4: the generator constructor builds b5 as a SwitchableBatchNorm2d
with one feature count int(ngf * w) per width w, holding one statistics set
per width, and updating the statistics of width index k leaves the statistics
of any other width index j untouched. -/
theorem claim_C4 (flags : FLAGSModel) (nz ngf bottom_width : ℕ) (i : ℕ)
    (hi : i < flags.width_mult_list.length)
    (bn : SwitchableBatchNorm2d) (j k : ℕ) (s : BNStats) (hjk : j ≠ k) :
    (genInitCfg flags nz ngf bottom_width).b5.num_features_list[i]? =
      some (pyInt ((ngf : ℕ) * flags.width_mult_list[i]))
  ∧ (genInitCfg flags nz ngf bottom_width).b5.stats.length =
      flags.width_mult_list.length
  ∧ (bn.stepStats k s).stats[j]? = bn.stats[j]? := by
  refine ⟨?_, ?_, ?_⟩
  · simp [genInitCfg, mkSwitchableBatchNorm2d, List.getElem?_map,
      List.getElem?_eq_getElem hi]
  · simp [genInitCfg, mkSwitchableBatchNorm2d]
  · exact List.getElem?_set_ne (Ne.symm hjk)

/-- Witness for claim C4. -/
theorem claim_C4_witness :
    (genInitCfg flagsQuarter 128 256 4).b5.num_features_list[0]? =
      some (pyInt ((256 : ℕ) * flagsQuarter.width_mult_list.get ⟨0, by decide⟩))
  ∧ (genInitCfg flagsQuarter 128 256 4).b5.stats.length =
      flagsQuarter.width_mult_list.length
  ∧ ((mkSwitchableBatchNorm2d [64, 128]).stepStats 1 ⟨[5], [7]⟩).stats[0]? =
      (mkSwitchableBatchNorm2d [64, 128]).stats[0]? :=
  claim_C4 flagsQuarter 128 256 4 0 (by decide)
    (mkSwitchableBatchNorm2d [64, 128]) 0 1 ⟨[5], [7]⟩ (by decide)

/-- Claim C5: the generator forward pass on a noise batch x with given labels
y computes exactly tanh(c5(ReLU(b5(block4(block3(block2(reshape(l1(x)), y),
y), y))))), with nothing else interposed. -/
theorem claim_C5 (g : GenModel) (stream : ℕ → ℕ) (x : Tensor2 ℝ)
    (ys : List ℕ) :
    g.forward stream x (some ys) = some (genForwardSpec g x ys) := rfl

/-- Claim C6: the discriminator forward returns, per sample, the projection
logits l5(h) + sum over the feature dimension of (embedding(y) * h), where h
is the global sum pooling over dims 2 and 3 of the ReLU-activated output of
the four (selected) D-blocks, one logit per sample. -/
theorem claim_C6 {α : Type} [LinearOrderedCommRing α] (d : DiscModel α)
    (flags : FLAGSModel) (x : Tensor4 α)
    (ys : List ℕ) (k : ℤ) (B1 B2 B3 B4 : Tensor4 α → Tensor4 α)
    (L : SNLinear α) (E : SNEmbedding α)
    (hk : discIdx flags = k)
    (hB1 : pyGet d.block1s id (if d.n_share > 0 then -1 else k) = B1)
    (hB2 : pyGet d.block2s id (if d.n_share > 1 then -1 else k) = B2)
    (hB3 : pyGet d.block3s id (if d.n_share > 2 then -1 else k) = B3)
    (hB4 : pyGet d.block4s id (if d.n_share > 3 then -1 else k) = B4)
    (hL : pyGet d.l5s ⟨[], []⟩ (if d.n_share = -1 then -1 else k) = L)
    (hE : pyGet d.l_ys ⟨[]⟩ k = E)
    (hw : L.weight.length = 1) (hb : L.bias.length = 1)
    (hlen : ys.length = (sumPool (relu4 (B4 (B3 (B2 (B1 x)))))).length) :
    d.forward flags x (some ys) =
      some (discSpecLogits (fun t => B4 (B3 (B2 (B1 t)))) L E x ys)
  ∧ (discSpecLogits (fun t => B4 (B3 (B2 (B1 t)))) L E x ys).length = ys.length
  ∧ ∀ row ∈ discSpecLogits (fun t => B4 (B3 (B2 (B1 t)))) L E x ys,
      row.length = 1 := by
  subst hk
  refine ⟨?_, ?_, discSpecLogits_rows _ _ _ _ _⟩
  · simp only [DiscModel.forward, hB1, hB2, hB3, hB4, hL, hE]
    rw [logits_eq L E _ ys hw hb hlen]
    rfl
  · simp only [discSpecLogits, List.length_zipWith]
    omega

/-- Witness for claim C6 on a concrete discriminator at width 0.25. -/
theorem claim_C6_witness :
    dShareZero.forward flagsQuarter (qTens 5) (some [0]) =
      some (discSpecLogits (fun t => id (id (id (constBlock 0 t))))
        ⟨[[1]], [0]⟩ ⟨[[0]]⟩ (qTens 5) [0])
  ∧ (discSpecLogits (fun t => id (id (id (constBlock 0 t))))
      ⟨[[1]], [0]⟩ ⟨[[0]]⟩ (qTens 5) [0]).length = ([0] : List ℕ).length
  ∧ ∀ row ∈ discSpecLogits (fun t => id (id (id (constBlock 0 t))))
      ⟨[[1]], [0]⟩ ⟨[[0]]⟩ (qTens 5) [0], row.length = 1 :=
  claim_C6 dShareZero flagsQuarter (qTens 5) [0] 0 (constBlock 0) id id id
    ⟨[[1]], [0]⟩ ⟨[[0]]⟩
    (discIdx_quarter flagsQuarter 0 (by simp [flagsQuarter]))
    rfl rfl rfl rfl rfl rfl rfl rfl (by decide)

/-- Claim C7: forward leaves the discriminator's stored module state
unchanged; the state-threaded translation returns the state it was given and
the same value as the stateless forward. -/
theorem claim_C7 {α : Type} [LinearOrderedCommRing α] (d : DiscModel α)
    (flags : FLAGSModel) (x : Tensor4 α) (y : Option (List ℕ)) :
    (d.forwardS flags x y).2 = d ∧ (d.forwardS flags x y).1 = d.forward flags x y := by
  cases y <;> exact ⟨rfl, rfl⟩

/-- Claim C8: under the constructor precondition -1 <= n_share <= 4, block k
uses the last (widest) branch iff n_share > k-1 and otherwise branch idx, the
final linear l5s uses the last branch iff n_share = -1 and otherwise branch
idx, and the label embedding l_ys always uses branch idx. -/
theorem claim_C8 {α : Type} [LinearOrderedCommRing α] (d : DiscModel α)
    (flags : FLAGSModel) (x : Tensor4 α)
    (ys : List ℕ) (nb k : ℕ)
    (hlo : -1 ≤ d.n_share) (hhi : d.n_share ≤ 4)
    (hwm : flags.width_mult = ((k : ℚ) + 1) / 4) (hknb : k < nb)
    (h1 : d.block1s.length = nb) (h2 : d.block2s.length = nb)
    (h3 : d.block3s.length = nb) (h4 : d.block4s.length = nb)
    (h5 : d.l5s.length = nb) (h6 : d.l_ys.length = nb) :
    d.forward flags x (some ys) = some (d.forwardRouted
      (if d.n_share > 0 then nb - 1 else k) (if d.n_share > 1 then nb - 1 else k)
      (if d.n_share > 2 then nb - 1 else k) (if d.n_share > 3 then nb - 1 else k)
      (if d.n_share = -1 then nb - 1 else k) k x ys) :=
  forward_eq_routed d flags x ys nb k (discIdx_quarter flags k hwm) hknb
    h1 h2 h3 h4 h5 h6

/-- Witness for claim C8 at n_share = 2, width 0.25: the first two blocks use
the last branch, everything else branch 0. -/
theorem claim_C8_witness :
    dShareTwo.forward flagsQuarter (qTens 5) (some [0]) =
      some (dShareTwo.forwardRouted
        (if dShareTwo.n_share > 0 then 4 - 1 else 0)
        (if dShareTwo.n_share > 1 then 4 - 1 else 0)
        (if dShareTwo.n_share > 2 then 4 - 1 else 0)
        (if dShareTwo.n_share > 3 then 4 - 1 else 0)
        (if dShareTwo.n_share = -1 then 4 - 1 else 0) 0 (qTens 5) [0]) :=
  claim_C8 dShareTwo flagsQuarter (qTens 5) [0] 4 0 (by decide) (by decide)
    (by simp [flagsQuarter]) (by decide) rfl rfl rfl rfl rfl rfl

/-- Claim C9: at the public interface the two defaults behave oppositely: the
generator called with y = none succeeds, using a sampled label batch whose
entries all lie in [0, num_classes), while the discriminator called with
y = none (its declared default) fails, because the embedding is applied to
None. -/
theorem claim_C9 (g : GenModel) (d : DiscModel ℤ) (stream : ℕ → ℕ)
    (flags : FLAGSModel) (x : Tensor2 ℝ) (xd : Tensor4 ℤ)
    (hnc : 0 < g.num_classes) :
    g.forward stream x none =
      some (g.forwardWith x (randintModel stream g.num_classes x.length))
  ∧ (∀ l ∈ randintModel stream g.num_classes x.length, l < g.num_classes)
  ∧ d.forward flags xd none = none := by
  refine ⟨rfl, ?_, rfl⟩
  intro l hl
  simp only [randintModel, List.mem_map] at hl
  obtain ⟨i, _, rfl⟩ := hl
  exact Nat.mod_lt _ hnc

/-- Witness for claim C9 with a concrete generator, discriminator and stream. -/
theorem claim_C9_witness :
    gWit.forward (fun _ => 0) [[0]] none =
      some (gWit.forwardWith [[0]]
        (randintModel (fun _ => 0) gWit.num_classes ([[(0 : ℝ)]]).length))
  ∧ (∀ l ∈ randintModel (fun _ => 0) gWit.num_classes ([[(0 : ℝ)]]).length,
      l < gWit.num_classes)
  ∧ dShareZero.forward flagsQuarter (qTens 5) none = none :=
  claim_C9 gWit dShareZero (fun _ => 0) flagsQuarter [[0]] (qTens 5) (by decide)

/-- Claim C10: if l1 produces N samples of C0 * bottom_width^2 features and
the three conditional blocks upsample (doubling both spatial dimensions),
b5 preserves shape and c5 maps to 3 channels preserving the spatial
dimensions, then the generator output has shape
(N, 3, 8 * bottom_width, 8 * bottom_width), and every element lies in
[-1, 1] because the final activation is tanh. -/
theorem claim_C10 (g : GenModel) (x : Tensor2 ℝ) (ys : List ℕ) (N C0 : ℕ)
    (hx : HasShape2 x N g.nz)
    (hbw : 0 < g.bottom_width) (hC0 : 0 < C0)
    (hl1 : HasShape2 (g.l1 x) N (C0 * (g.bottom_width * g.bottom_width)))
    (hb2 : ∀ t n c h w, HasShape4 t n c h w → 0 < c →
      ∃ c2, 0 < c2 ∧ HasShape4 (g.block2 t ys) n c2 (2 * h) (2 * w))
    (hb3 : ∀ t n c h w, HasShape4 t n c h w → 0 < c →
      ∃ c2, 0 < c2 ∧ HasShape4 (g.block3 t ys) n c2 (2 * h) (2 * w))
    (hb4 : ∀ t n c h w, HasShape4 t n c h w → 0 < c →
      ∃ c2, 0 < c2 ∧ HasShape4 (g.block4 t ys) n c2 (2 * h) (2 * w))
    (hb5 : ∀ t n c h w, HasShape4 t n c h w → HasShape4 (g.b5 t) n c h w)
    (hc5 : ∀ t n c h w, HasShape4 t n c h w → 0 < c →
      HasShape4 (g.c5 t) n 3 h w) :
    HasShape4 (g.forwardWith x ys) N 3 (8 * g.bottom_width) (8 * g.bottom_width)
  ∧ ∀ v, Mem4 v (g.forwardWith x ys) → -1 ≤ v ∧ v ≤ 1 := by
  have hre : HasShape4 (reshapeView g.bottom_width (g.l1 x)) N C0
      g.bottom_width g.bottom_width := by
    have h := hasShape4_reshapeView g.bottom_width (g.l1 x) N
      (C0 * (g.bottom_width * g.bottom_width)) hl1
    rwa [Nat.mul_div_cancel _ (Nat.mul_pos hbw hbw)] at h
  obtain ⟨c2, hc2, h2⟩ := hb2 _ N C0 g.bottom_width g.bottom_width hre hC0
  obtain ⟨c3, hc3, h3⟩ := hb3 _ N c2 (2 * g.bottom_width) (2 * g.bottom_width) h2 hc2
  obtain ⟨c4, hc4, h4⟩ :=
    hb4 _ N c3 (2 * (2 * g.bottom_width)) (2 * (2 * g.bottom_width)) h3 hc3
  have h5 := hb5 _ N c4 (2 * (2 * (2 * g.bottom_width)))
    (2 * (2 * (2 * g.bottom_width))) h4
  have h6 := hasShape4_relu4 _ N c4 _ _ h5
  have h7 := hc5 _ N c4 _ _ h6 hc4
  have h8 := hasShape4_tanh4 _ N 3 _ _ h7
  have heq : 2 * (2 * (2 * g.bottom_width)) = 8 * g.bottom_width := by ring
  rw [heq] at h8
  exact ⟨h8, fun v hv => mem4_tanh4_bounds _ v hv⟩

/-- Witness for claim C10 on a concrete generator with duplicating upsample
blocks. -/
theorem claim_C10_witness :
    HasShape4 (gWit.forwardWith [[0]] [0]) 1 3 (8 * gWit.bottom_width)
      (8 * gWit.bottom_width)
  ∧ ∀ v, Mem4 v (gWit.forwardWith [[0]] [0]) → -1 ≤ v ∧ v ≤ 1 :=
  claim_C10 gWit [[0]] [0] 1 1 (by decide) (by decide) (by decide) (by decide)
    (fun t n c h w ht hc => ⟨c, hc, hasShape4_upsampleDup t n c h w ht⟩)
    (fun t n c h w ht hc => ⟨c, hc, hasShape4_upsampleDup t n c h w ht⟩)
    (fun t n c h w ht hc => ⟨c, hc, hasShape4_upsampleDup t n c h w ht⟩)
    (fun t n c h w ht => ht)
    (fun t n c h w ht hc => hasShape4_threeChan t n c h w hc ht)

end SlimGAN